import Mathlib

/-!
Verification model of the transcription pipeline in `src/main.py`.

The single interesting function of the repository is `process_transcription`,
a background job that resolves a Drive file reference, stages the video,
extracts audio with ffmpeg, transcribes it (synchronously or, above a size
threshold, via a long-running operation with a 30-second poll loop), and posts
the outcome to a webhook.  The model below embeds that function shallowly:
every external effect (Drive download, ffmpeg, GCS upload, recognition,
`blob.delete`, webhook posts) is driven by an `Env` record saying how the call
would behave, and the run is observed as a list of `Event`s — the side effects
performed, in program order — together with a terminal outcome.
-/

namespace Shiner

/-- Python strings are modelled as lists of characters. -/
abbrev PyStr := List Char

/-- Python truthiness of an optional string (`None` and `""` are falsy),
as used by the guards on lines 47 and 60 of `src/main.py`. -/
def pyTruthy (s : Option PyStr) : Bool := !(s.getD []).isEmpty

/-- The share-link marker `'/file/d/'` from line 49 of `src/main.py`. -/
def fileMarker : PyStr := "/file/d/".toList

/-- Python `s.split(sep)` for a separator `sep`: cut `s` at every
non-overlapping, leftmost-first occurrence of `sep` (lines 49 and 52 of
`src/main.py` use it with `'/file/d/'` and `'/'`). -/
def pySplit (sep : PyStr) : PyStr → List PyStr
  | [] => [[]]
  | c :: rest =>
    if h : sep ≠ [] ∧ sep.isPrefixOf (c :: rest) then
      [] :: pySplit sep ((c :: rest).drop sep.length)
    else
      match pySplit sep rest with
      | [] => [[c]]
      | p :: ps => (c :: p) :: ps
termination_by s => s.length
decreasing_by
  · have hpos : 0 < sep.length := List.length_pos.mpr h.1
    simp only [List.length_drop, List.length_cons]
    omega
  · simp only [List.length_cons]
    omega

/-- A `pySplit` result is never the empty list (Python `split` always returns
at least one piece). -/
theorem pySplit_ne_nil (sep s : PyStr) : pySplit sep s ≠ [] := by
  induction s using pySplit.induct sep with
  | case1 => simp [pySplit]
  | case2 c rest h ih =>
    rw [pySplit]
    simp only [dif_pos h]
    simp
  | case3 c rest h heq =>
    rw [pySplit]
    simp only [dif_neg h]
    rw [heq]
    simp
  | case4 c rest h p ps heq ih =>
    rw [pySplit]
    simp only [dif_neg h]
    rw [heq]
    simp

/-- If `sep` occurs nowhere in `s`, Python `s.split(sep)` returns `[s]`. -/
theorem pySplit_no_occurrence (sep s : PyStr)
    (h : ∀ k, k < s.length → sep.isPrefixOf (s.drop k) = false) :
    pySplit sep s = [s] := by
  induction s with
  | nil => rw [pySplit]
  | cons c rest ih =>
    have h0 : sep.isPrefixOf (c :: rest) = false := by
      have := h 0 (by simp)
      simpa using this
    rw [pySplit]
    rw [dif_neg (by simp [h0])]
    rw [ih (fun k hk => by simpa using h (k + 1) (by simpa using Nat.succ_lt_succ hk))]

/-- If `sep` is non-empty and is a prefix of `s`, the split peels it off the
front. -/
theorem pySplit_of_isPrefixOf (sep s : PyStr) (hne : sep ≠ [])
    (hpre : sep.isPrefixOf s = true) :
    pySplit sep s = [] :: pySplit sep (s.drop sep.length) := by
  cases s with
  | nil =>
    cases sep with
    | nil => exact absurd rfl hne
    | cons a as => simp [List.isPrefixOf] at hpre
  | cons c rest =>
    have hco : sep ≠ [] ∧ sep.isPrefixOf (c :: rest) = true := ⟨hne, hpre⟩
    rw [pySplit, dif_pos hco]

/-- Splitting `pre ++ sep ++ rest` where the first occurrence of `sep` is the
explicit one at position `pre.length` yields `pre` followed by the split of
`rest`. -/
theorem pySplit_append (sep pre rest : PyStr) (hne : sep ≠ [])
    (h : ∀ k, k < pre.length →
      sep.isPrefixOf ((pre ++ (sep ++ rest)).drop k) = false) :
    pySplit sep (pre ++ sep ++ rest) = pre :: pySplit sep rest := by
  induction pre with
  | nil =>
    have hpre : sep.isPrefixOf (sep ++ rest) = true := by
      exact List.isPrefixOf_iff_prefix.mpr (List.prefix_append sep rest)
    simp only [List.nil_append]
    rw [pySplit_of_isPrefixOf sep (sep ++ rest) hne hpre]
    rw [List.drop_left]
  | cons c pre ih =>
    have h0 : sep.isPrefixOf (c :: (pre ++ (sep ++ rest))) = false := by
      have := h 0 (by simp)
      simpa using this
    have hstep : pySplit sep (pre ++ sep ++ rest) = pre :: pySplit sep rest :=
      ih (fun k hk => by
        have := h (k + 1) (by simpa using Nat.succ_lt_succ hk)
        simpa using this)
    have hshape : (c :: pre) ++ sep ++ rest = c :: (pre ++ (sep ++ rest)) := by
      simp
    rw [hshape, pySplit]
    rw [dif_neg (by simp [h0])]
    have hstep2 : pySplit sep (pre ++ (sep ++ rest)) = pre :: pySplit sep rest := by
      simpa [List.append_assoc] using hstep
    rw [hstep2]

/-- The first piece of a single-character split is the longest slash-free run:
Python `s.split(ch)[0]` is `takeWhile (· != ch) s`. -/
theorem pySplit_single_headD (ch : Char) (s : PyStr) :
    (pySplit [ch] s).headD [] = s.takeWhile (fun c => c != ch) := by
  induction s with
  | nil => rw [pySplit]; rfl
  | cons c rest ih =>
    rw [pySplit]
    by_cases hc : c = ch
    · subst hc
      rw [dif_pos ⟨by simp, by simp [List.isPrefixOf]⟩]
      simp [List.takeWhile_cons]
    · have hch : (ch == c) = false := by
        simp only [beq_eq_false_iff_ne]
        exact fun hcc => hc hcc.symm
      have hpre : [ch].isPrefixOf (c :: rest) = false := by
        simp [List.isPrefixOf, hch]
      rw [dif_neg (fun hco => by rw [hpre] at hco; exact Bool.false_ne_true hco.2)]
      cases hps : pySplit [ch] rest with
      | nil => exact absurd hps (pySplit_ne_nil [ch] rest)
      | cons p ps =>
        rw [hps] at ih
        simp only [List.headD_cons] at ih
        simp [List.takeWhile_cons, hc, ih]

/-- When the separator begins with `ch`, cutting the head piece of the split at
the first `ch` is the same as cutting the whole string at the first `ch`. -/
theorem takeWhile_pySplit_headD (ch : Char) (sep₂ : PyStr) (s : PyStr) :
    ((pySplit (ch :: sep₂) s).headD []).takeWhile (fun c => c != ch)
      = s.takeWhile (fun c => c != ch) := by
  induction s with
  | nil => rw [pySplit]; rfl
  | cons c rest ih =>
    rw [pySplit]
    by_cases hpre : (ch :: sep₂).isPrefixOf (c :: rest) = true
    · have hc : ch = c := by
        simp only [List.isPrefixOf, Bool.and_eq_true, beq_iff_eq] at hpre
        exact hpre.1
      rw [dif_pos ⟨by simp, hpre⟩]
      subst hc
      simp [List.takeWhile_cons]
    · rw [dif_neg (fun hco => hpre hco.2)]
      cases hps : pySplit (ch :: sep₂) rest with
      | nil => exact absurd hps (pySplit_ne_nil (ch :: sep₂) rest)
      | cons p ps =>
        rw [hps] at ih
        simp only [List.headD_cons] at ih
        by_cases hc : c = ch
        · subst hc
          simp [List.takeWhile_cons]
        · simp [List.takeWhile_cons, hc, ih]

/-- Cutting `id ++ '/' :: tail` at the first slash returns `id` when `id` is
slash-free. -/
theorem takeWhile_slashFree (id tail : PyStr) (hid : ∀ c ∈ id, c ≠ '/') :
    (id ++ '/' :: tail).takeWhile (fun c => c != ('/' : Char)) = id := by
  induction id with
  | nil => simp [List.takeWhile_cons]
  | cons c cs ih =>
    have hc : c ≠ '/' := hid c (by simp)
    simp only [List.cons_append, List.takeWhile_cons]
    simp [hc, ih (fun c hc => hid c (by simp [hc]))]

/-- Extraction of a file id from a share link, `src/main.py` lines 49-55:
`parts = drive_link.split('/file/d/')`; when `len(parts) > 1` the id is
`parts[1].split('/')[0]`, otherwise the function logs and returns silently
(modelled as `none`). -/
def extractFromLink (drive_link : PyStr) : Option PyStr :=
  let parts := pySplit fileMarker drive_link
  if parts.length > 1 then
    some ((pySplit ['/'] ((parts.drop 1).headD [])).headD [])
  else
    none

/-- Reference resolution, `src/main.py` lines 43-62: take `file_id` verbatim
when truthy; otherwise extract it from a truthy `drive_link`; `none` models the
silent early `return`s (lines 55, 58 and 62) taken before any side effect when
no usable id is found. -/
def resolveFileId (drive_link file_id : Option PyStr) : Option PyStr :=
  if pyTruthy drive_link && !pyTruthy file_id then
    match extractFromLink (drive_link.getD []) with
    | some fid => if fid.isEmpty then none else some fid
    | none => none
  else
    if pyTruthy file_id then file_id else none

/-- The exceptions the pipeline can raise, one per fallible external call of
`src/main.py` (download, ffmpeg, GCS upload, operation start, result fetch /
recognize, `alternatives[0]` indexing, `blob.delete`, webhook post). -/
inductive Err where
  | downloadErr
  | transcodeErr
  | uploadErr
  | startErr
  | fetchErr
  | indexErr
  | deleteErr
  | notifyErr
deriving DecidableEq, Repr

/-- The `str(e)` rendering used for the error payload on line 160. -/
def errStr : Err → String
  | .downloadErr => "drive download failed"
  | .transcodeErr => "ffmpeg returned non-zero exit status"
  | .uploadErr => "gcs upload failed"
  | .startErr => "long_running_recognize failed"
  | .fetchErr => "recognition failed"
  | .indexErr => "list index out of range"
  | .deleteErr => "blob delete failed"
  | .notifyErr => "webhook post failed"

/-- Observable side effects of one run of `process_transcription`, in program
order.  Events record that the call was attempted; whether it succeeded is
governed by the corresponding `Env` flag.  The two webhook events carry a
`delivered` flag: `false` models `requests.post` raising. -/
inductive Event where
  | createTempVideo
  | downloadVideo
  | runFfmpeg
  | uploadBlob
  | startLRO
  | sleep30
  | fetchResult
  | recognizeSync
  | deleteBlob
  | removeVideoFile
  | removeAudioFile
  | postTranscript (transcript : String) (delivered : Bool)
  | postError (message : String) (delivered : Bool)
deriving DecidableEq, Repr

/-- The behaviour of the outside world during one run: the request fields and,
for each external call `process_transcription` makes, whether it succeeds.
`pollDones` gives the successive values of `operation.done()`; if it runs out
before a `true`, the poll loop never exits (the run diverges). -/
structure Env where
  drive_link : Option PyStr
  file_id : Option PyStr
  downloadOk : Bool
  ffmpegOk : Bool
  audioSize : Nat
  uploadOk : Bool
  startOk : Bool
  pollDones : List Bool
  fetchOk : Bool
  response : List (List String)
  deleteOk : Bool
  successPostOk : Bool
  errorPostOk : Bool
deriving Repr

/-- The strategy guard of line 104: `audio_size > 10 * 1024 * 1024`. -/
def useAsync (audioSize : Nat) : Bool := decide (audioSize > 10 * 1024 * 1024)

/-- The poll interval of line 122 (`time.sleep(30)`), in seconds. -/
def pollIntervalSeconds : Nat := 30

/-- The timeout passed to `operation.result` on line 123, in seconds.  It
bounds only the final result fetch, after `operation.done()` returned true. -/
def resultTimeoutSeconds : Nat := 3600

/-- Sleep events produced by the poll loop of lines 119-122: one `sleep30` per
`done=false` answer before the first `done=true`. -/
def pollEvents : List Bool → List Event
  | [] => []
  | true :: _ => []
  | false :: rest => Event.sleep30 :: pollEvents rest

/-- Whether the poll loop of lines 119-122 exits within the supplied answers:
true exactly when some `operation.done()` call answers `true`. -/
def pollDone : List Bool → Bool
  | [] => false
  | true :: _ => true
  | false :: rest => pollDone rest

/-- Transcript assembly, lines 138-141: starting from the empty string, append
`result.alternatives[0].transcript` for each result in response order; a result
with no alternatives makes `alternatives[0]` raise (modelled as `none`). -/
def buildTranscript (results : List (List String)) : Option String :=
  results.foldlM (fun transcript alternatives =>
    match alternatives with
    | [] => none
    | top :: _ => some (transcript ++ top)) ""

/-- Result of one pipeline stage group: normal completion, a raised exception,
or a loop that never exits. -/
inductive StepRes where
  | ok
  | err (e : Err)
  | hang
deriving DecidableEq, Repr

/-- The asynchronous strategy, lines 104-126: upload the audio blob, start the
long-running operation, poll every 30 seconds until done, fetch the result,
then delete the blob.  Note the deletion is attempted only after a successful
result fetch, and a deletion failure raises. -/
def asyncBranch (env : Env) : List Event × StepRes :=
  let t0 := [Event.uploadBlob]
  if !env.uploadOk then (t0, .err .uploadErr) else
  let t1 := t0 ++ [Event.startLRO]
  if !env.startOk then (t1, .err .startErr) else
  let t2 := t1 ++ pollEvents env.pollDones
  if !pollDone env.pollDones then (t2, .hang) else
  let t3 := t2 ++ [Event.fetchResult]
  if !env.fetchOk then (t3, .err .fetchErr) else
  let t4 := t3 ++ [Event.deleteBlob]
  if !env.deleteOk then (t4, .err .deleteErr) else
  (t4, .ok)

/-- The synchronous strategy, lines 127-134: read the audio file and make one
blocking `recognize` call. -/
def syncBranch (env : Env) : List Event × StepRes :=
  let t0 := [Event.recognizeSync]
  if !env.fetchOk then (t0, .err .fetchErr) else (t0, .ok)

/-- The tail of the happy path, lines 136-155: build the transcript, remove the
two scratch files, then post `{"transcript": ...}` to the webhook (a failing
post raises). -/
def finishStage (env : Env) : List Event × StepRes :=
  match buildTranscript env.response with
  | none => ([], .err .indexErr)
  | some transcript =>
    let t := [Event.removeVideoFile, Event.removeAudioFile,
              Event.postTranscript transcript env.successPostOk]
    if env.successPostOk then (t, .ok) else (t, .err .notifyErr)

/-- The `try` body of `process_transcription`, lines 42-155: resolve the file
id (silently returning on an unusable request), create the scratch video file
and download into it, convert with ffmpeg, transcribe by the size-selected
strategy, build the transcript, clean up, and post the result. -/
def pipeline (env : Env) : List Event × StepRes :=
  match resolveFileId env.drive_link env.file_id with
  | none => ([], .ok)
  | some _ =>
    let staged := [Event.createTempVideo, Event.downloadVideo]
    if !env.downloadOk then (staged, .err .downloadErr) else
    let conv := staged ++ [Event.runFfmpeg]
    if !env.ffmpegOk then (conv, .err .transcodeErr) else
    match (if useAsync env.audioSize then asyncBranch env else syncBranch env) with
    | (bt, .err e) => (conv ++ bt, .err e)
    | (bt, .hang) => (conv ++ bt, .hang)
    | (bt, .ok) =>
      match finishStage env with
      | (ft, r) => (conv ++ bt ++ ft, r)

/-- Outcome of the whole background function: it returned, it never returned
(poll loop stuck), or an exception escaped to the caller. -/
inductive TopOutcome where
  | finished
  | diverged
  | escaped (e : Err)
deriving DecidableEq, Repr

/-- The webhook call `requests.post(WEBHOOK_URL, ...)`; a failing post raises. -/
def postToWebhook (ok : Bool) : Except Err Unit :=
  if ok then .ok () else .error .notifyErr

/-- The `except` handler of lines 157-164: post `{"error": str(e)}` to the
webhook, and swallow (log only) any exception that post itself raises. -/
def errorHandler (env : Env) (e : Err) : List Event × Except Err Unit :=
  let ev := Event.postError (errStr e) env.errorPostOk
  match postToWebhook env.errorPostOk with
  | .ok _ => ([ev], .ok ())
  | .error _ => ([ev], .ok ())

/-- The whole of `process_transcription`, lines 41-164: run the `try` body and
route any raised exception through the error handler; `escaped` would mean an
exception left the function. -/
def processTranscription (env : Env) : List Event × TopOutcome :=
  match pipeline env with
  | (t, .ok) => (t, .finished)
  | (t, .hang) => (t, .diverged)
  | (t, .err e) =>
    match errorHandler env e with
    | (t2, .ok _) => (t ++ t2, .finished)
    | (t2, .error e2) => (t ++ t2, .escaped e2)

/-- The side effects one run performs, in order. -/
def runTrace (env : Env) : List Event := (processTranscription env).1

/-- The terminal outcome of one run. -/
def runOutcome (env : Env) : TopOutcome := (processTranscription env).2

/-- Whether an event is a webhook post attempt (success or error payload). -/
def isPostAttempt : Event → Bool
  | .postTranscript _ _ => true
  | .postError _ _ => true
  | _ => false

/-- Whether an event is a webhook post that actually reached the sink. -/
def isDeliveredPost : Event → Bool
  | .postTranscript _ d => d
  | .postError _ d => d
  | _ => false

/-- Whether an event is an `{"error": ...}` post attempt. -/
def isErrorPost : Event → Bool
  | .postError _ _ => true
  | _ => false

/-- The request yields a usable file id, so the pipeline body starts staging. -/
def validResolved (env : Env) : Bool :=
  (resolveFileId env.drive_link env.file_id).isSome

/-- The run reaches the strategy selection of line 104: the request resolved
and both the download and the ffmpeg conversion succeed. -/
def reachesSelect (env : Env) : Bool :=
  validResolved env && env.downloadOk && env.ffmpegOk

/-- The run takes the asynchronous branch and reaches its poll loop. -/
def reachesAsyncPoll (env : Env) : Bool :=
  reachesSelect env && useAsync env.audioSize && env.uploadOk && env.startOk

/-- The run reaches the scratch-file cleanup of lines 146-150: the selected
strategy succeeded end-to-end and the transcript was assembled. -/
def reachesCleanup (env : Env) : Bool :=
  reachesSelect env &&
  (if useAsync env.audioSize then
    env.uploadOk && env.startOk && pollDone env.pollDones && env.fetchOk && env.deleteOk
   else env.fetchOk) &&
  (buildTranscript env.response).isSome

/-! Concrete environments used to instantiate or refute the claims. -/

/-- A request with neither `drive_link` nor `file_id`. -/
def envNoId : Env :=
  ⟨none, none, true, true, 0, true, true, [true], true, [["x"]], true, true, true⟩

/-- A well-formed request (a `file_id` is supplied) whose external calls all
succeed; the audio is small, so the synchronous strategy is selected. -/
def envSyncOk : Env :=
  ⟨none, some ("FID".toList), true, true, 1024, true, true,
   [false, false, false, true], true, [["hello "], ["world"]], true, true, true⟩

/-- As `envSyncOk` but with audio above the 10 MiB threshold, so the
asynchronous strategy with its poll loop is exercised. -/
def envAsyncOk : Env :=
  ⟨none, some ("FID".toList), true, true, 11 * 1024 * 1024, true, true,
   [false, false, false, true], true, [["hello "], ["world"]], true, true, true⟩

/-- A run in which the ffmpeg conversion fails after a successful download. -/
def envFfmpegFail : Env :=
  ⟨none, some ("FID".toList), true, false, 1024, true, true,
   [false, false, false, true], true, [["hello "], ["world"]], true, true, true⟩

/-- An asynchronous run in which the final result fetch fails after the poll
loop completed. -/
def envAsyncFetchFail : Env :=
  ⟨none, some ("FID".toList), true, true, 11 * 1024 * 1024, true, true,
   [false, false, false, true], false, [["hello "], ["world"]], true, true, true⟩

/-- A successful synchronous run whose success webhook post fails. -/
def envPostFail : Env :=
  ⟨none, some ("FID".toList), true, true, 1024, true, true,
   [false, false, false, true], true, [["hello "], ["world"]], true, false, true⟩

/-- An asynchronous run whose operation stays not-done for 121 polls (121
sleeps of 30 s is 3630 s, beyond the claimed one-hour budget) and then
completes. -/
def envSlowPoll : Env :=
  ⟨none, some ("FID".toList), true, true, 11 * 1024 * 1024, true, true,
   List.replicate 121 false ++ [true], true, [["hello "], ["world"]], true, true, true⟩

/-! Helper lemmas characterizing the poll loop, the two strategy branches and
the composed pipeline, used by the claim theorems below. -/

theorem pollEvents_eq (ds : List Bool) :
    pollEvents ds = List.replicate (ds.takeWhile (fun b => !b)).length Event.sleep30 := by
  induction ds with
  | nil => rfl
  | cons b rest ih =>
    cases b
    · simp [pollEvents, List.takeWhile_cons, ih, List.replicate_succ]
    · simp [pollEvents, List.takeWhile_cons]

theorem pollDone_eq (ds : List Bool) : pollDone ds = ds.contains true := by
  induction ds with
  | nil => rfl
  | cons b rest ih =>
    cases b
    · simpa [pollDone, List.contains_cons] using ih
    · simp [pollDone, List.contains_cons]

theorem count_pollEvents_sleep (ds : List Bool) :
    (pollEvents ds).count Event.sleep30 = (ds.takeWhile (fun b => !b)).length := by
  induction ds with
  | nil => rfl
  | cons b rest ih =>
    cases b
    · simp [pollEvents, List.takeWhile_cons, List.count_cons, ih]
    · simp [pollEvents, List.takeWhile_cons]

theorem count_pollEvents_ne (ds : List Bool) (e : Event) (h : e ≠ Event.sleep30) :
    (pollEvents ds).count e = 0 := by
  induction ds with
  | nil => rfl
  | cons b rest ih =>
    cases b
    · simp [pollEvents, List.count_cons, ih, h]
    · simp [pollEvents]

theorem filter_pollEvents (p : Event → Bool) (hp : p Event.sleep30 = false)
    (ds : List Bool) : (pollEvents ds).filter p = [] := by
  induction ds with
  | nil => rfl
  | cons b rest ih =>
    cases b
    · simp [pollEvents, List.filter_cons, hp, ih]
    · simp [pollEvents]

theorem mem_pollEvents (ds : List Bool) (e : Event) (h : e ∈ pollEvents ds) :
    e = Event.sleep30 := by
  rw [pollEvents_eq] at h
  exact (List.eq_of_mem_replicate h)

theorem asyncBranch_ok (env : Env) (hu : env.uploadOk = true) (hs : env.startOk = true)
    (hp : pollDone env.pollDones = true) (hq : env.fetchOk = true)
    (hdel : env.deleteOk = true) :
    asyncBranch env = ([Event.uploadBlob, Event.startLRO] ++ pollEvents env.pollDones
      ++ [Event.fetchResult, Event.deleteBlob], .ok) := by
  unfold asyncBranch
  simp [hu, hs, hp, hq, hdel]

theorem asyncBranch_upload_fail (env : Env) (hu : env.uploadOk = false) :
    asyncBranch env = ([Event.uploadBlob], .err .uploadErr) := by
  unfold asyncBranch
  simp [hu]

theorem asyncBranch_start_fail (env : Env) (hu : env.uploadOk = true)
    (hs : env.startOk = false) :
    asyncBranch env = ([Event.uploadBlob, Event.startLRO], .err .startErr) := by
  unfold asyncBranch
  simp [hu, hs]

theorem asyncBranch_hang (env : Env) (hu : env.uploadOk = true) (hs : env.startOk = true)
    (hp : pollDone env.pollDones = false) :
    asyncBranch env = ([Event.uploadBlob, Event.startLRO] ++ pollEvents env.pollDones,
      .hang) := by
  unfold asyncBranch
  simp [hu, hs, hp]

theorem asyncBranch_fetch_fail (env : Env) (hu : env.uploadOk = true)
    (hs : env.startOk = true) (hp : pollDone env.pollDones = true)
    (hq : env.fetchOk = false) :
    asyncBranch env = ([Event.uploadBlob, Event.startLRO] ++ pollEvents env.pollDones
      ++ [Event.fetchResult], .err .fetchErr) := by
  unfold asyncBranch
  simp [hu, hs, hp, hq]

theorem asyncBranch_delete_fail (env : Env) (hu : env.uploadOk = true)
    (hs : env.startOk = true) (hp : pollDone env.pollDones = true)
    (hq : env.fetchOk = true) (hdel : env.deleteOk = false) :
    asyncBranch env = ([Event.uploadBlob, Event.startLRO] ++ pollEvents env.pollDones
      ++ [Event.fetchResult, Event.deleteBlob], .err .deleteErr) := by
  unfold asyncBranch
  simp [hu, hs, hp, hq, hdel]

theorem syncBranch_ok (env : Env) (hq : env.fetchOk = true) :
    syncBranch env = ([Event.recognizeSync], .ok) := by
  unfold syncBranch
  simp [hq]

theorem syncBranch_fail (env : Env) (hq : env.fetchOk = false) :
    syncBranch env = ([Event.recognizeSync], .err .fetchErr) := by
  unfold syncBranch
  simp [hq]

theorem finishStage_none (env : Env) (hb : buildTranscript env.response = none) :
    finishStage env = ([], .err .indexErr) := by
  unfold finishStage
  rw [hb]

theorem finishStage_some (env : Env) (t : String)
    (hb : buildTranscript env.response = some t) :
    finishStage env = ([Event.removeVideoFile, Event.removeAudioFile,
      Event.postTranscript t env.successPostOk],
      if env.successPostOk then .ok else .err .notifyErr) := by
  unfold finishStage
  rw [hb]
  cases hsp : env.successPostOk <;> simp [hsp]

theorem pipeline_invalid (env : Env)
    (hres : resolveFileId env.drive_link env.file_id = none) :
    pipeline env = ([], .ok) := by
  unfold pipeline
  rw [hres]

theorem pipeline_download_fail (env : Env) (fid : PyStr)
    (hres : resolveFileId env.drive_link env.file_id = some fid)
    (hd : env.downloadOk = false) :
    pipeline env = ([Event.createTempVideo, Event.downloadVideo], .err .downloadErr) := by
  unfold pipeline
  rw [hres]
  simp [hd]

theorem pipeline_ffmpeg_fail (env : Env) (fid : PyStr)
    (hres : resolveFileId env.drive_link env.file_id = some fid)
    (hd : env.downloadOk = true) (hf : env.ffmpegOk = false) :
    pipeline env = ([Event.createTempVideo, Event.downloadVideo, Event.runFfmpeg],
      .err .transcodeErr) := by
  unfold pipeline
  rw [hres]
  simp [hd, hf]

theorem pipeline_staged_err (env : Env) (fid : PyStr) (bt : List Event) (e : Err)
    (hres : resolveFileId env.drive_link env.file_id = some fid)
    (hd : env.downloadOk = true) (hf : env.ffmpegOk = true)
    (hb : (if useAsync env.audioSize then asyncBranch env else syncBranch env)
      = (bt, .err e)) :
    pipeline env = ([Event.createTempVideo, Event.downloadVideo, Event.runFfmpeg]
      ++ bt, .err e) := by
  unfold pipeline
  rw [hres]
  simp [hd, hf, hb]

theorem pipeline_staged_hang (env : Env) (fid : PyStr) (bt : List Event)
    (hres : resolveFileId env.drive_link env.file_id = some fid)
    (hd : env.downloadOk = true) (hf : env.ffmpegOk = true)
    (hb : (if useAsync env.audioSize then asyncBranch env else syncBranch env)
      = (bt, .hang)) :
    pipeline env = ([Event.createTempVideo, Event.downloadVideo, Event.runFfmpeg]
      ++ bt, .hang) := by
  unfold pipeline
  rw [hres]
  simp [hd, hf, hb]

theorem pipeline_staged_ok (env : Env) (fid : PyStr) (bt : List Event)
    (hres : resolveFileId env.drive_link env.file_id = some fid)
    (hd : env.downloadOk = true) (hf : env.ffmpegOk = true)
    (hb : (if useAsync env.audioSize then asyncBranch env else syncBranch env)
      = (bt, .ok)) :
    pipeline env = ([Event.createTempVideo, Event.downloadVideo, Event.runFfmpeg]
      ++ bt ++ (finishStage env).1, (finishStage env).2) := by
  unfold pipeline
  rw [hres]
  simp [hd, hf, hb]

theorem processTranscription_of_ok (env : Env) (t : List Event)
    (h : pipeline env = (t, .ok)) : processTranscription env = (t, .finished) := by
  unfold processTranscription
  rw [h]

theorem processTranscription_of_hang (env : Env) (t : List Event)
    (h : pipeline env = (t, .hang)) : processTranscription env = (t, .diverged) := by
  unfold processTranscription
  rw [h]

theorem processTranscription_of_err (env : Env) (t : List Event) (e : Err)
    (h : pipeline env = (t, .err e)) :
    processTranscription env
      = (t ++ [Event.postError (errStr e) env.errorPostOk], .finished) := by
  unfold processTranscription errorHandler postToWebhook
  rw [h]
  cases hp : env.errorPostOk <;> simp [hp]

theorem runTrace_of_pipeline (env : Env) :
    runTrace env = (pipeline env).1 ∨
    ∃ e, (pipeline env).2 = .err e ∧
      runTrace env = (pipeline env).1 ++ [Event.postError (errStr e) env.errorPostOk] := by
  rcases h : pipeline env with ⟨t, r⟩
  cases r with
  | ok =>
    left
    rw [runTrace, processTranscription_of_ok env t h]
  | hang =>
    left
    rw [runTrace, processTranscription_of_hang env t h]
  | err e =>
    right
    exact ⟨e, rfl, by rw [runTrace, processTranscription_of_err env t e h]⟩

theorem count_runTrace_eq (env : Env) (e : Event) (h : isErrorPost e = false) :
    (runTrace env).count e = ((pipeline env).1).count e := by
  rcases runTrace_of_pipeline env with heq | ⟨e2, -, heq⟩
  · rw [heq]
  · have hnotmem : e ∉ [Event.postError (errStr e2) env.errorPostOk] := by
      intro hmem
      simp only [List.mem_singleton] at hmem
      rw [hmem] at h
      simp [isErrorPost] at h
    rw [heq, List.count_append, List.count_eq_zero.mpr hnotmem]
    omega

theorem mem_runTrace_of_pipeline (env : Env) (e : Event) (h : e ∈ (pipeline env).1) :
    e ∈ runTrace env := by
  rcases runTrace_of_pipeline env with heq | ⟨e2, -, heq⟩ <;> rw [heq] <;> simp [h]

theorem mem_runTrace (env : Env) (e : Event) (h : e ∈ runTrace env) :
    e ∈ (pipeline env).1 ∨ isErrorPost e = true := by
  rcases runTrace_of_pipeline env with heq | ⟨e2, -, heq⟩
  · rw [heq] at h
    exact Or.inl h
  · rw [heq] at h
    rcases List.mem_append.mp h with h | h
    · exact Or.inl h
    · simp only [List.mem_singleton] at h
      right
      rw [h]
      rfl

theorem mem_asyncBranch (env : Env) (e : Event) (h : e ∈ (asyncBranch env).1) :
    e = Event.uploadBlob ∨ e = Event.startLRO ∨ e = Event.sleep30 ∨
    e = Event.fetchResult ∨ e = Event.deleteBlob := by
  unfold asyncBranch at h
  split_ifs at h <;>
    simp only [pollEvents_eq, List.mem_append, List.mem_cons, List.mem_singleton,
      List.mem_replicate, List.not_mem_nil, or_false] at h <;>
    tauto

theorem asyncBranch_mem_upload (env : Env) : Event.uploadBlob ∈ (asyncBranch env).1 := by
  unfold asyncBranch
  split_ifs <;> simp

theorem syncBranch_events (env : Env) : (syncBranch env).1 = [Event.recognizeSync] := by
  unfold syncBranch
  split_ifs <;> rfl

theorem mem_finishStage (env : Env) (e : Event) (h : e ∈ (finishStage env).1) :
    e = Event.removeVideoFile ∨ e = Event.removeAudioFile ∨
    ∃ t, e = Event.postTranscript t env.successPostOk := by
  unfold finishStage at h
  cases hb : buildTranscript env.response with
  | none => rw [hb] at h; simp at h
  | some t =>
    rw [hb] at h
    split_ifs at h <;>
      simp only [List.mem_cons, List.mem_singleton, List.not_mem_nil, or_false] at h <;>
      tauto

theorem count_finishStage_eq_zero (env : Env) (e : Event)
    (h1 : e ≠ Event.removeVideoFile) (h2 : e ≠ Event.removeAudioFile)
    (h3 : isPostAttempt e = false) : ((finishStage env).1).count e = 0 := by
  rw [List.count_eq_zero]
  intro hmem
  rcases mem_finishStage env e hmem with h | h | ⟨t, h⟩
  · exact h1 h
  · exact h2 h
  · rw [h] at h3
    simp [isPostAttempt] at h3

theorem mem_pipeline_of_staged (env : Env) (fid : PyStr) (bt : List Event) (r : StepRes)
    (hres : resolveFileId env.drive_link env.file_id = some fid)
    (hd : env.downloadOk = true) (hf : env.ffmpegOk = true)
    (hb : (if useAsync env.audioSize then asyncBranch env else syncBranch env) = (bt, r))
    (e : Event) (h : e ∈ (pipeline env).1) :
    e ∈ [Event.createTempVideo, Event.downloadVideo, Event.runFfmpeg] ∨
    e ∈ bt ∨ e ∈ (finishStage env).1 := by
  cases r with
  | ok =>
    rw [pipeline_staged_ok env fid bt hres hd hf hb] at h
    simp only [List.append_assoc, List.mem_append] at h
    tauto
  | err e2 =>
    rw [pipeline_staged_err env fid bt e2 hres hd hf hb] at h
    simp only [List.mem_append] at h
    tauto
  | hang =>
    rw [pipeline_staged_hang env fid bt hres hd hf hb] at h
    simp only [List.mem_append] at h
    tauto

/-! Claim theorems. -/

/-- Claim C1, counterexample: on the request with neither `drive_link` nor
`file_id`, the code performs no side effect at all and in particular posts
zero error notifications, not exactly one — lines 60-62 of `src/main.py` log
and `return` without touching the webhook. -/
theorem c1_counterexample :
    runTrace envNoId = [] ∧
    ((runTrace envNoId).filter isErrorPost).length ≠ 1 ∧
    runOutcome envNoId = .finished := by
  decide

/-- Claim C1, amended: for every request in which neither field is truthy, and
for every request whose truthy `drive_link` lacks the `'/file/d/'` marker while
`file_id` is not truthy, the pipeline returns silently with an empty trace — no
staging, transcoding or transcription side effects, and also no error
notification to the sink. -/
theorem c1_amended (env : Env)
    (hfi : pyTruthy env.file_id = false)
    (hdl : pyTruthy env.drive_link = false ∨
      (∀ k, k < (env.drive_link.getD []).length →
        fileMarker.isPrefixOf ((env.drive_link.getD []).drop k) = false)) :
    processTranscription env = ([], .finished) := by
  have hres : resolveFileId env.drive_link env.file_id = none := by
    unfold resolveFileId
    by_cases hdt : pyTruthy env.drive_link = true
    · rcases hdl with h | h
      · rw [hdt] at h
        exact absurd h (by simp)
      · rw [if_pos (by simp [hdt, hfi])]
        have hext : extractFromLink (env.drive_link.getD []) = none := by
          unfold extractFromLink
          rw [pySplit_no_occurrence fileMarker _ h]
          simp
        rw [hext]
    · have hdf : pyTruthy env.drive_link = false := by
        cases hx : pyTruthy env.drive_link
        · rfl
        · exact absurd hx hdt
      simp [hdf, hfi]
  rw [processTranscription_of_ok env [] (pipeline_invalid env hres)]

/-- Claim C1, witness: the amended statement evaluated at the concrete request
with both fields missing. -/
theorem c1_witness : processTranscription envNoId = ([], .finished) :=
  c1_amended envNoId (by decide) (Or.inl (by decide))

/-- Claim C8: transcript assembly (lines 138-141) is the no-separator
concatenation, in result order, of each result's top alternative: the two
spec examples hold, and in general a response whose results all carry at least
one alternative yields exactly the left fold appending the head alternative of
each result. -/
theorem c8_transcript_concat :
    buildTranscript [["hello "], ["world"]] = some ("hello world") ∧
    buildTranscript [["foo"], ["bar"]] = some ("foobar") ∧
    (∀ results : List (List String), (∀ r ∈ results, r ≠ []) →
      buildTranscript results
        = some (results.foldl (fun acc r => acc ++ r.headD "") "")) := by
  refine ⟨by decide, by decide, fun rs h => ?_⟩
  unfold buildTranscript
  suffices hgen : ∀ (rs : List (List String)) (acc : String), (∀ r ∈ rs, r ≠ []) →
      List.foldlM (fun transcript alternatives =>
        match alternatives with
        | [] => none
        | top :: _ => some (transcript ++ top)) acc rs
      = some (rs.foldl (fun acc r => acc ++ r.headD "") acc) by
    exact hgen rs "" h
  intro rs
  induction rs with
  | nil => intro acc h; rfl
  | cons r rest ih =>
    intro acc h
    cases r with
    | nil => exact absurd rfl (h [] (by simp))
    | cons top alts =>
      simp only [List.foldlM_cons, List.foldl_cons, List.headD_cons]
      exact ih (acc ++ top) (fun r hr => h r (by simp [hr]))

/-- Claim C8, witness: the general concatenation statement evaluated on a
concrete three-result response. -/
theorem c8_witness : buildTranscript [["a"], ["b", "x"], ["c"]] = some ("abc") :=
  (c8_transcript_concat.2.2 [["a"], ["b", "x"], ["c"]] (by decide)).trans (by decide)

/-- Claim C9: in the asynchronous strategy, a poll sequence answering
`done=false` three times and then `done=true` produces exactly three sleep
intervals before the loop exits, after which the final result is fetched. -/
theorem c9_three_polls (env : Env)
    (hreach : reachesAsyncPoll env = true)
    (hpd : env.pollDones = [false, false, false, true]) :
    (runTrace env).count Event.sleep30 = 3 ∧ Event.fetchResult ∈ runTrace env := by
  simp only [reachesAsyncPoll, reachesSelect, Bool.and_eq_true] at hreach
  obtain ⟨⟨⟨⟨⟨hv, hd⟩, hf⟩, ha⟩, hu⟩, hs⟩ := hreach
  obtain ⟨fid, hres⟩ := Option.isSome_iff_exists.mp (by simpa [validResolved] using hv)
  have hp : pollDone env.pollDones = true := by rw [hpd]; rfl
  have hcount3 : (pollEvents env.pollDones).count Event.sleep30 = 3 := by
    rw [hpd]
    decide
  have hbr : (if useAsync env.audioSize then asyncBranch env else syncBranch env)
      = asyncBranch env := by rw [ha]; simp
  rcases Bool.eq_false_or_eq_true env.fetchOk with hq | hq
  · rcases Bool.eq_false_or_eq_true env.deleteOk with hdel | hdel
    · have hab := asyncBranch_ok env hu hs hp hq hdel
      have hpl := pipeline_staged_ok env fid _ hres hd hf (by rw [hbr, hab])
      constructor
      · rw [count_runTrace_eq env Event.sleep30 (by rfl), hpl]
        have hft : ((finishStage env).1).count Event.sleep30 = 0 :=
          count_finishStage_eq_zero env Event.sleep30 (by simp) (by simp) (by rfl)
        simp [List.count_append, hcount3, List.count_cons, hft]
      · apply mem_runTrace_of_pipeline
        rw [hpl]
        simp
    · have hab := asyncBranch_delete_fail env hu hs hp hq hdel
      have hpl := pipeline_staged_err env fid _ _ hres hd hf (by rw [hbr, hab])
      constructor
      · rw [count_runTrace_eq env Event.sleep30 (by rfl), hpl]
        simp [List.count_append, hcount3, List.count_cons]
      · apply mem_runTrace_of_pipeline
        rw [hpl]
        simp
  · have hab := asyncBranch_fetch_fail env hu hs hp hq
    have hpl := pipeline_staged_err env fid _ _ hres hd hf (by rw [hbr, hab])
    constructor
    · rw [count_runTrace_eq env Event.sleep30 (by rfl), hpl]
      simp [List.count_append, hcount3, List.count_cons]
    · apply mem_runTrace_of_pipeline
      rw [hpl]
      simp

/-- Claim C9, witness: the three-sleep statement evaluated on the concrete
all-succeeding asynchronous environment. -/
theorem c9_witness :
    (runTrace envAsyncOk).count Event.sleep30 = 3 ∧
    Event.fetchResult ∈ runTrace envAsyncOk :=
  c9_three_polls envAsyncOk (by decide) rfl

/-- Claim C6: strategy selection is the pure strict-threshold comparison of
line 104: a run that reaches selection takes the asynchronous upload path
exactly when the audio size exceeds 10*1024*1024 bytes and makes the
synchronous recognize call exactly otherwise; the boundary value 10*1024*1024
itself selects Sync. -/
theorem c6_strategy_threshold :
    (∀ env : Env, reachesSelect env = true →
      ((useAsync env.audioSize = true →
          Event.uploadBlob ∈ runTrace env ∧ Event.recognizeSync ∉ runTrace env) ∧
       (useAsync env.audioSize = false →
          Event.recognizeSync ∈ runTrace env ∧ Event.uploadBlob ∉ runTrace env))) ∧
    (∀ n : Nat, (10 * 1024 * 1024 < n → useAsync n = true) ∧
      (n ≤ 10 * 1024 * 1024 → useAsync n = false)) ∧
    useAsync (10 * 1024 * 1024) = false := by
  refine ⟨?_, ?_, by decide⟩
  case refine_2 =>
    intro n
    refine ⟨fun h => ?_, fun h => ?_⟩
    · simp only [useAsync, gt_iff_lt, decide_eq_true_eq]
      omega
    · simp only [useAsync, gt_iff_lt, decide_eq_false_iff_not, not_lt]
      omega
  intro env hsel
  simp only [reachesSelect, Bool.and_eq_true] at hsel
  obtain ⟨⟨hv, hd⟩, hf⟩ := hsel
  obtain ⟨fid, hres⟩ := Option.isSome_iff_exists.mp (by simpa [validResolved] using hv)
  constructor
  · intro ha
    have hbr : (if useAsync env.audioSize then asyncBranch env else syncBranch env)
        = asyncBranch env := by rw [ha]; simp
    rcases hab : asyncBranch env with ⟨bt, r⟩
    have hbt : Event.uploadBlob ∈ bt := by
      have hm := asyncBranch_mem_upload env
      rw [hab] at hm
      exact hm
    have hb2 : (if useAsync env.audioSize then asyncBranch env else syncBranch env)
        = (bt, r) := by rw [hbr, hab]
    constructor
    · apply mem_runTrace_of_pipeline
      cases r with
      | ok => rw [pipeline_staged_ok env fid bt hres hd hf hb2]; simp [hbt]
      | err e2 => rw [pipeline_staged_err env fid bt e2 hres hd hf hb2]; simp [hbt]
      | hang => rw [pipeline_staged_hang env fid bt hres hd hf hb2]; simp [hbt]
    · intro hmem
      rcases mem_runTrace env _ hmem with hm | hm
      · rcases mem_pipeline_of_staged env fid bt r hres hd hf hb2 _ hm with hm | hm | hm
        · simp at hm
        · have hm2 : Event.recognizeSync ∈ (asyncBranch env).1 := by
            rw [hab]
            exact hm
          rcases mem_asyncBranch env _ hm2 with h | h | h | h | h <;> simp at h
        · rcases mem_finishStage env _ hm with h | h | ⟨t, h⟩ <;> simp at h
      · simp [isErrorPost] at hm
  · intro ha
    have hbr : (if useAsync env.audioSize then asyncBranch env else syncBranch env)
        = syncBranch env := by rw [ha]; simp
    rcases hsb : syncBranch env with ⟨bt, r⟩
    have hbt : bt = [Event.recognizeSync] := by
      have hm := syncBranch_events env
      rw [hsb] at hm
      exact hm
    have hb2 : (if useAsync env.audioSize then asyncBranch env else syncBranch env)
        = (bt, r) := by rw [hbr, hsb]
    constructor
    · apply mem_runTrace_of_pipeline
      cases r with
      | ok => rw [pipeline_staged_ok env fid bt hres hd hf hb2]; simp [hbt]
      | err e2 => rw [pipeline_staged_err env fid bt e2 hres hd hf hb2]; simp [hbt]
      | hang => rw [pipeline_staged_hang env fid bt hres hd hf hb2]; simp [hbt]
    · intro hmem
      rcases mem_runTrace env _ hmem with hm | hm
      · rcases mem_pipeline_of_staged env fid bt r hres hd hf hb2 _ hm with hm | hm | hm
        · simp at hm
        · rw [hbt] at hm
          simp at hm
        · rcases mem_finishStage env _ hm with h | h | ⟨t, h⟩ <;> simp at h
      · simp [isErrorPost] at hm

/-- Claim C6, witness: the threshold statement evaluated at a large-audio run,
a small-audio run, and the boundary size. -/
theorem c6_witness :
    Event.uploadBlob ∈ runTrace envAsyncOk ∧
    Event.recognizeSync ∈ runTrace envSyncOk ∧
    useAsync (10 * 1024 * 1024) = false :=
  ⟨((c6_strategy_threshold.1 envAsyncOk (by decide)).1 (by decide)).1,
   ((c6_strategy_threshold.1 envSyncOk (by decide)).2 (by decide)).1,
   c6_strategy_threshold.2.2⟩

/-- Claim C2, counterexample: when ffmpeg fails (non-zero exit status), the
run finishes with the scratch video file created but never removed — the
cleanup of lines 146-150 lies on the success path only, so this stage failure
leaks the staged artifact. -/
theorem c2_counterexample :
    (runTrace envFfmpegFail).count Event.createTempVideo = 1 ∧
    (runTrace envFfmpegFail).count Event.removeVideoFile = 0 ∧
    runOutcome envFfmpegFail = .finished := by
  decide

theorem asyncBranch_ok_iff (env : Env) :
    ((asyncBranch env).2 = StepRes.ok) ↔
      (env.uploadOk && env.startOk && pollDone env.pollDones && env.fetchOk
        && env.deleteOk) = true := by
  unfold asyncBranch
  rcases Bool.eq_false_or_eq_true env.uploadOk with hu | hu <;>
    rcases Bool.eq_false_or_eq_true env.startOk with hs | hs <;>
      rcases Bool.eq_false_or_eq_true (pollDone env.pollDones) with hp | hp <;>
        rcases Bool.eq_false_or_eq_true env.fetchOk with hq | hq <;>
          rcases Bool.eq_false_or_eq_true env.deleteOk with hdel | hdel <;>
            simp [hu, hs, hp, hq, hdel]

theorem syncBranch_ok_iff (env : Env) :
    ((syncBranch env).2 = StepRes.ok) ↔ env.fetchOk = true := by
  unfold syncBranch
  rcases Bool.eq_false_or_eq_true env.fetchOk with hq | hq <;> simp [hq]

theorem count_branch_eq_zero (env : Env) (bt : List Event) (r : StepRes)
    (hb : (if useAsync env.audioSize then asyncBranch env else syncBranch env) = (bt, r))
    (e : Event)
    (h1 : e ≠ Event.uploadBlob) (h2 : e ≠ Event.startLRO) (h3 : e ≠ Event.sleep30)
    (h4 : e ≠ Event.fetchResult) (h5 : e ≠ Event.deleteBlob)
    (h6 : e ≠ Event.recognizeSync) :
    bt.count e = 0 := by
  rw [List.count_eq_zero]
  intro he
  rcases Bool.eq_false_or_eq_true (useAsync env.audioSize) with ha | ha
  · rw [if_pos ha] at hb
    have he2 : e ∈ (asyncBranch env).1 := by rw [hb]; exact he
    rcases mem_asyncBranch env e he2 with h | h | h | h | h
    · exact h1 h
    · exact h2 h
    · exact h3 h
    · exact h4 h
    · exact h5 h
  · rw [if_neg (by simp [ha])] at hb
    have he2 : e ∈ (syncBranch env).1 := by rw [hb]; exact he
    rw [syncBranch_events] at he2
    simp only [List.mem_singleton] at he2
    exact h6 he2

theorem count_scratch_runTrace (env : Env) (e : Event)
    (herr : isErrorPost e = false)
    (hne1 : e ≠ Event.createTempVideo) (hne2 : e ≠ Event.downloadVideo)
    (hne3 : e ≠ Event.runFfmpeg)
    (hbr0 : ∀ bt r,
      (if useAsync env.audioSize then asyncBranch env else syncBranch env) = (bt, r) →
      bt.count e = 0)
    (hfin : ∀ t : String, [Event.removeVideoFile, Event.removeAudioFile,
        Event.postTranscript t env.successPostOk].count e = 1) :
    (runTrace env).count e = if reachesCleanup env = true then 1 else 0 := by
  rw [count_runTrace_eq env e herr]
  cases hres : resolveFileId env.drive_link env.file_id with
  | none =>
    have hclean : reachesCleanup env = false := by
      simp [reachesCleanup, reachesSelect, validResolved, hres]
    rw [pipeline_invalid env hres, hclean]
    simp
  | some fid =>
    have hv : validResolved env = true := by simp [validResolved, hres]
    rcases Bool.eq_false_or_eq_true env.downloadOk with hd | hd
    · rcases Bool.eq_false_or_eq_true env.ffmpegOk with hf | hf
      · rcases hb : (if useAsync env.audioSize then asyncBranch env else syncBranch env)
          with ⟨bt, r⟩
        have hbt := hbr0 bt r hb
        have hmid_iff :
            (r = StepRes.ok) ↔
            ((if useAsync env.audioSize then
                env.uploadOk && env.startOk && pollDone env.pollDones
                  && env.fetchOk && env.deleteOk
              else env.fetchOk) = true) := by
          rcases Bool.eq_false_or_eq_true (useAsync env.audioSize) with ha | ha
          · rw [if_pos ha] at hb
            have hiff := asyncBranch_ok_iff env
            rw [hb] at hiff
            rw [if_pos ha]
            simpa using hiff
          · rw [if_neg (by simp [ha])] at hb
            have hiff := syncBranch_ok_iff env
            rw [hb] at hiff
            rw [if_neg (by simp [ha])]
            simpa using hiff
        cases r with
        | err e2 =>
          have hmid : (if useAsync env.audioSize then
              env.uploadOk && env.startOk && pollDone env.pollDones
                && env.fetchOk && env.deleteOk
            else env.fetchOk) = false := by
            rcases Bool.eq_false_or_eq_true (if useAsync env.audioSize then
                env.uploadOk && env.startOk && pollDone env.pollDones
                  && env.fetchOk && env.deleteOk
              else env.fetchOk) with hx | hx
            · exact absurd (hmid_iff.mpr hx) (by simp)
            · exact hx
          have hclean : reachesCleanup env = false := by
            simp [reachesCleanup, hmid]
          rw [pipeline_staged_err env fid bt e2 hres hd hf hb, hclean]
          simp [List.count_append, List.count_cons, hbt, hne1, hne2, hne3]
        | hang =>
          have hmid : (if useAsync env.audioSize then
              env.uploadOk && env.startOk && pollDone env.pollDones
                && env.fetchOk && env.deleteOk
            else env.fetchOk) = false := by
            rcases Bool.eq_false_or_eq_true (if useAsync env.audioSize then
                env.uploadOk && env.startOk && pollDone env.pollDones
                  && env.fetchOk && env.deleteOk
              else env.fetchOk) with hx | hx
            · exact absurd (hmid_iff.mpr hx) (by simp)
            · exact hx
          have hclean : reachesCleanup env = false := by
            simp [reachesCleanup, hmid]
          rw [pipeline_staged_hang env fid bt hres hd hf hb, hclean]
          simp [List.count_append, List.count_cons, hbt, hne1, hne2, hne3]
        | ok =>
          have hmid := hmid_iff.mp rfl
          rw [pipeline_staged_ok env fid bt hres hd hf hb]
          cases hbd : buildTranscript env.response with
          | none =>
            have hclean : reachesCleanup env = false := by
              simp [reachesCleanup, hbd]
            rw [finishStage_none env hbd, hclean]
            simp [List.count_append, List.count_cons, hbt, hne1, hne2, hne3]
          | some t =>
            have hclean : reachesCleanup env = true := by
              simp [reachesCleanup, reachesSelect, hv, hd, hf, hmid, hbd]
            rw [finishStage_some env t hbd, hclean]
            have hfint := hfin t
            simp only [List.count_append]
            simp [hbt, hne1, hne2, hne3, List.count_cons, hfint]
      · have hclean : reachesCleanup env = false := by
          simp [reachesCleanup, reachesSelect, hf]
        rw [pipeline_ffmpeg_fail env fid hres hd hf, hclean]
        simp [List.count_cons, hne1, hne2, hne3]
    · have hclean : reachesCleanup env = false := by
        simp [reachesCleanup, reachesSelect, hd]
      rw [pipeline_download_fail env fid hres hd, hclean]
      simp [List.count_cons, hne1, hne2]

theorem count_removeVideo_runTrace (env : Env) :
    (runTrace env).count Event.removeVideoFile
      = if reachesCleanup env = true then 1 else 0 :=
  count_scratch_runTrace env Event.removeVideoFile rfl (by simp) (by simp) (by simp)
    (fun bt r hb => count_branch_eq_zero env bt r hb _ (by simp) (by simp) (by simp)
      (by simp) (by simp) (by simp))
    (fun t => by simp [List.count_cons])

theorem count_removeAudio_runTrace (env : Env) :
    (runTrace env).count Event.removeAudioFile
      = if reachesCleanup env = true then 1 else 0 :=
  count_scratch_runTrace env Event.removeAudioFile rfl (by simp) (by simp) (by simp)
    (fun bt r hb => count_branch_eq_zero env bt r hb _ (by simp) (by simp) (by simp)
      (by simp) (by simp) (by simp))
    (fun t => by simp [List.count_cons])

theorem count_createTemp_runTrace (env : Env) (fid : PyStr)
    (hres : resolveFileId env.drive_link env.file_id = some fid) :
    (runTrace env).count Event.createTempVideo = 1 := by
  rw [count_runTrace_eq env _ (by rfl)]
  rcases Bool.eq_false_or_eq_true env.downloadOk with hd | hd
  · rcases Bool.eq_false_or_eq_true env.ffmpegOk with hf | hf
    · rcases hb : (if useAsync env.audioSize then asyncBranch env else syncBranch env)
        with ⟨bt, r⟩
      have hbt : bt.count Event.createTempVideo = 0 :=
        count_branch_eq_zero env bt r hb _ (by simp) (by simp) (by simp)
          (by simp) (by simp) (by simp)
      cases r with
      | err e2 =>
        rw [pipeline_staged_err env fid bt e2 hres hd hf hb]
        simp [List.count_append, List.count_cons, hbt]
      | hang =>
        rw [pipeline_staged_hang env fid bt hres hd hf hb]
        simp [List.count_append, List.count_cons, hbt]
      | ok =>
        rw [pipeline_staged_ok env fid bt hres hd hf hb]
        have hft : ((finishStage env).1).count Event.createTempVideo = 0 :=
          count_finishStage_eq_zero env _ (by simp) (by simp) (by rfl)
        simp [List.count_append, List.count_cons, hbt, hft]
    · rw [pipeline_ffmpeg_fail env fid hres hd hf]
      decide
  · rw [pipeline_download_fail env fid hres hd]
    decide

/-- Claim C2, amended: the scratch video and audio files are each deleted
exactly once on runs that reach the cleanup block of lines 146-150 (every
stage succeeded and the transcript was built), and are never deleted on any
other run — whatever stage failed (download, ffmpeg, upload, operation start,
a never-done poll loop, result fetch, blob deletion, or transcript indexing)
no deletion runs; in particular, on every resolved run that fails to reach
cleanup the scratch video file was created exactly once and never removed
(leaked). -/
theorem c2_amended :
    (∀ env : Env, reachesCleanup env = true →
      (runTrace env).count Event.removeVideoFile = 1 ∧
      (runTrace env).count Event.removeAudioFile = 1) ∧
    (∀ env : Env, reachesCleanup env = false →
      (runTrace env).count Event.removeVideoFile = 0 ∧
      (runTrace env).count Event.removeAudioFile = 0) ∧
    (∀ env : Env, validResolved env = true → reachesCleanup env = false →
      (runTrace env).count Event.createTempVideo = 1 ∧
      (runTrace env).count Event.removeVideoFile = 0) := by
  refine ⟨fun env h => ?_, fun env h => ?_, fun env hv h => ?_⟩
  · exact ⟨by rw [count_removeVideo_runTrace env, h]; simp,
           by rw [count_removeAudio_runTrace env, h]; simp⟩
  · exact ⟨by rw [count_removeVideo_runTrace env, h]; simp,
           by rw [count_removeAudio_runTrace env, h]; simp⟩
  · obtain ⟨fid, hres⟩ := Option.isSome_iff_exists.mp (by simpa [validResolved] using hv)
    exact ⟨count_createTemp_runTrace env fid hres,
           by rw [count_removeVideo_runTrace env, h]; simp⟩

/-- Claim C2, witness: the amended statement evaluated on a fully successful
synchronous run (both scratch files removed once) and on the concrete
ffmpeg-failure run (no removals; the created video file is leaked). -/
theorem c2_witness :
    ((runTrace envSyncOk).count Event.removeVideoFile = 1 ∧
     (runTrace envSyncOk).count Event.removeAudioFile = 1) ∧
    ((runTrace envFfmpegFail).count Event.removeVideoFile = 0 ∧
     (runTrace envFfmpegFail).count Event.removeAudioFile = 0) ∧
    ((runTrace envFfmpegFail).count Event.createTempVideo = 1 ∧
     (runTrace envFfmpegFail).count Event.removeVideoFile = 0) :=
  ⟨c2_amended.1 envSyncOk (by decide),
   c2_amended.2.1 envFfmpegFail (by decide),
   c2_amended.2.2 envFfmpegFail (by decide) (by decide)⟩

theorem filter_errorPost_of_err (env : Env) (t : List Event) (e : Err)
    (h : pipeline env = (t, .err e)) :
    (runTrace env).filter isErrorPost
      = t.filter isErrorPost ++ [Event.postError (errStr e) env.errorPostOk] := by
  rw [runTrace, processTranscription_of_err env t e h]
  simp [List.filter_append, isErrorPost]

theorem filter_errorPost_of_ok (env : Env) (t : List Event)
    (h : pipeline env = (t, .ok)) :
    (runTrace env).filter isErrorPost = t.filter isErrorPost := by
  rw [runTrace, processTranscription_of_ok env t h]

theorem finishStage_ne_hang (env : Env) : (finishStage env).2 ≠ .hang := by
  unfold finishStage
  cases hb : buildTranscript env.response
  · simp
  · split_ifs <;> simp

theorem pipeline_async_done_shape (env : Env) (fid : PyStr)
    (hres : resolveFileId env.drive_link env.file_id = some fid)
    (hd : env.downloadOk = true) (hf : env.ffmpegOk = true)
    (ha : useAsync env.audioSize = true)
    (hu : env.uploadOk = true) (hs : env.startOk = true)
    (hp : pollDone env.pollDones = true) :
    (pipeline env).2 ≠ .hang ∧
    (pipeline env).1.count Event.sleep30
      = (pollEvents env.pollDones).count Event.sleep30 := by
  have hbr : (if useAsync env.audioSize then asyncBranch env else syncBranch env)
      = asyncBranch env := by rw [ha]; simp
  rcases Bool.eq_false_or_eq_true env.fetchOk with hq | hq
  · rcases Bool.eq_false_or_eq_true env.deleteOk with hdel | hdel
    · have hpl := pipeline_staged_ok env fid _ hres hd hf
        (by rw [hbr, asyncBranch_ok env hu hs hp hq hdel])
      rw [hpl]
      refine ⟨by simpa using finishStage_ne_hang env, ?_⟩
      have hft := count_finishStage_eq_zero env Event.sleep30 (by simp) (by simp) (by rfl)
      simp [List.count_append, List.count_cons, hft]
    · have hpl := pipeline_staged_err env fid _ _ hres hd hf
        (by rw [hbr, asyncBranch_delete_fail env hu hs hp hq hdel])
      rw [hpl]
      refine ⟨by simp, ?_⟩
      simp [List.count_append, List.count_cons]
  · have hpl := pipeline_staged_err env fid _ _ hres hd hf
      (by rw [hbr, asyncBranch_fetch_fail env hu hs hp hq])
    rw [hpl]
    refine ⟨by simp, ?_⟩
    simp [List.count_append, List.count_cons]

theorem runOutcome_diverged_iff (env : Env) :
    runOutcome env = .diverged ↔ (pipeline env).2 = .hang := by
  rcases h : pipeline env with ⟨t, r⟩
  cases r with
  | ok => rw [runOutcome, processTranscription_of_ok env t h]; simp
  | hang => rw [runOutcome, processTranscription_of_hang env t h]; simp
  | err e => rw [runOutcome, processTranscription_of_err env t e h]; simp

/-- Claim C3, counterexample: an asynchronous run whose result fetch fails
after the poll loop finished uploads the blob but never deletes it — the
`blob.delete()` of line 126 only runs after a successful `operation.result`,
so the staged object is deleted zero times, not exactly once. -/
theorem c3_counterexample :
    (runTrace envAsyncFetchFail).count Event.uploadBlob = 1 ∧
    (runTrace envAsyncFetchFail).count Event.deleteBlob = 0 := by
  decide

/-- Claim C3, amended: in the asynchronous strategy the staged object is
deleted (attempted) exactly once only when the result fetch succeeds; when the
poll/result step fails the object is never deleted and the failure is posted as
the job's error; and a deletion failure is not swallowed — it propagates to the
top-level handler, which escalates it as the job's error notification. -/
theorem c3_amended (env : Env)
    (hreach : reachesAsyncPoll env = true)
    (hp : pollDone env.pollDones = true) :
    (env.fetchOk = true → (runTrace env).count Event.deleteBlob = 1) ∧
    (env.fetchOk = false → (runTrace env).count Event.deleteBlob = 0 ∧
      (runTrace env).filter isErrorPost
        = [Event.postError (errStr Err.fetchErr) env.errorPostOk]) ∧
    (env.fetchOk = true → env.deleteOk = false →
      (runTrace env).filter isErrorPost
        = [Event.postError (errStr Err.deleteErr) env.errorPostOk]) := by
  simp only [reachesAsyncPoll, reachesSelect, Bool.and_eq_true] at hreach
  obtain ⟨⟨⟨⟨⟨hv, hd⟩, hf⟩, ha⟩, hu⟩, hs⟩ := hreach
  obtain ⟨fid, hres⟩ := Option.isSome_iff_exists.mp (by simpa [validResolved] using hv)
  have hbr : (if useAsync env.audioSize then asyncBranch env else syncBranch env)
      = asyncBranch env := by rw [ha]; simp
  have hpdel : (pollEvents env.pollDones).count Event.deleteBlob = 0 :=
    count_pollEvents_ne _ _ (by simp)
  have hpfil : (pollEvents env.pollDones).filter isErrorPost = [] :=
    filter_pollEvents _ (by rfl) _
  refine ⟨fun hq => ?_, fun hq => ?_, fun hq hdel => ?_⟩
  · rcases Bool.eq_false_or_eq_true env.deleteOk with hdel | hdel
    · have hpl := pipeline_staged_ok env fid _ hres hd hf
        (by rw [hbr, asyncBranch_ok env hu hs hp hq hdel])
      rw [count_runTrace_eq env _ (by rfl), hpl]
      have hft := count_finishStage_eq_zero env Event.deleteBlob (by simp) (by simp) (by rfl)
      simp [List.count_append, List.count_cons, hft, hpdel]
    · have hpl := pipeline_staged_err env fid _ _ hres hd hf
        (by rw [hbr, asyncBranch_delete_fail env hu hs hp hq hdel])
      rw [count_runTrace_eq env _ (by rfl), hpl]
      simp [List.count_append, List.count_cons, hpdel]
  · have hpl := pipeline_staged_err env fid _ _ hres hd hf
      (by rw [hbr, asyncBranch_fetch_fail env hu hs hp hq])
    constructor
    · rw [count_runTrace_eq env _ (by rfl), hpl]
      simp [List.count_append, List.count_cons, hpdel]
    · rw [filter_errorPost_of_err env _ _ hpl]
      simp [List.filter_append, isErrorPost, hpfil]
  · have hpl := pipeline_staged_err env fid _ _ hres hd hf
      (by rw [hbr, asyncBranch_delete_fail env hu hs hp hq hdel])
    rw [filter_errorPost_of_err env _ _ hpl]
    simp [List.filter_append, isErrorPost, hpfil]

/-- Claim C3, witness: the amended statement evaluated on the all-succeeding
asynchronous run: the blob is deleted exactly once there. -/
theorem c3_witness : (runTrace envAsyncOk).count Event.deleteBlob = 1 :=
  (c3_amended envAsyncOk (by decide) (by decide)).1 (by decide)

set_option maxRecDepth 40000 in
/-- Claim C5, counterexample: an operation that stays not-done for 121 polls
and then completes makes the loop sleep 121 times — 3630 seconds of waiting,
beyond the claimed one-hour budget — yet the run finishes successfully with no
timeout error: the loop of lines 119-122 has no overall wait budget, and the
3600-second timeout of line 123 only covers the final result fetch. -/
theorem c5_counterexample :
    (runTrace envSlowPoll).count Event.sleep30 = 121 ∧
    resultTimeoutSeconds <
      pollIntervalSeconds * (runTrace envSlowPoll).count Event.sleep30 ∧
    runOutcome envSlowPoll = .finished ∧
    (runTrace envSlowPoll).filter isErrorPost = [] := by
  decide

/-- Claim C5, amended: the driver polls on a fixed 30-second interval with no
overall wait budget: the loop sleeps once per not-done poll however many there
are, and it terminates exactly when some poll reports done — if the operation
never reports done the loop never exits (and no TranscribeTimeout error
exists; the 3600-second timeout of line 123 bounds only the final result
fetch). -/
theorem c5_amended (env : Env) (hreach : reachesAsyncPoll env = true) :
    (runTrace env).count Event.sleep30
      = (env.pollDones.takeWhile (fun b => !b)).length ∧
    (runOutcome env = .diverged ↔ env.pollDones.contains true = false) := by
  simp only [reachesAsyncPoll, reachesSelect, Bool.and_eq_true] at hreach
  obtain ⟨⟨⟨⟨⟨hv, hd⟩, hf⟩, ha⟩, hu⟩, hs⟩ := hreach
  obtain ⟨fid, hres⟩ := Option.isSome_iff_exists.mp (by simpa [validResolved] using hv)
  rcases Bool.eq_false_or_eq_true (pollDone env.pollDones) with hp | hp
  · obtain ⟨hne, hcnt⟩ := pipeline_async_done_shape env fid hres hd hf ha hu hs hp
    constructor
    · rw [count_runTrace_eq env _ (by rfl), hcnt, count_pollEvents_sleep]
    · rw [runOutcome_diverged_iff]
      rw [pollDone_eq] at hp
      have hp2 : true ∈ env.pollDones := by simpa using hp
      simp [hne, hp2]
  · have hbr : (if useAsync env.audioSize then asyncBranch env else syncBranch env)
        = asyncBranch env := by rw [ha]; simp
    have hpl := pipeline_staged_hang env fid _ hres hd hf
      (by rw [hbr, asyncBranch_hang env hu hs hp])
    constructor
    · rw [count_runTrace_eq env _ (by rfl), hpl]
      simp [List.count_append, List.count_cons, count_pollEvents_sleep]
    · rw [runOutcome_diverged_iff, hpl]
      rw [pollDone_eq] at hp
      have hp2 : true ∉ env.pollDones := by simpa using hp
      simp [hp2]

/-- Claim C5, witness: the amended statement evaluated on the 121-poll run:
121 sleeps and no divergence since the operation eventually reports done. -/
theorem c5_witness :
    (runTrace envSlowPoll).count Event.sleep30
      = (envSlowPoll.pollDones.takeWhile (fun b => !b)).length ∧
    (runOutcome envSlowPoll = .diverged ↔
      envSlowPoll.pollDones.contains true = false) :=
  c5_amended envSlowPoll (by decide)

theorem branch_no_post (env : Env) (bt : List Event) (r : StepRes)
    (hb : (if useAsync env.audioSize then asyncBranch env else syncBranch env) = (bt, r))
    (e : Event) (he : e ∈ bt) : isPostAttempt e = false := by
  rcases Bool.eq_false_or_eq_true (useAsync env.audioSize) with ha | ha
  · rw [if_pos ha] at hb
    have he2 : e ∈ (asyncBranch env).1 := by rw [hb]; exact he
    rcases mem_asyncBranch env e he2 with h | h | h | h | h <;> rw [h] <;> rfl
  · rw [if_neg (by simp [ha])] at hb
    have he2 : e ∈ (syncBranch env).1 := by rw [hb]; exact he
    rw [syncBranch_events] at he2
    simp only [List.mem_singleton] at he2
    rw [he2]
    rfl

theorem isErrorPost_eq_false_of (e : Event) (h : isPostAttempt e = false) :
    isErrorPost e = false := by
  cases e <;> simp_all [isPostAttempt, isErrorPost]

theorem isDeliveredPost_eq_false_of (e : Event) (h : isPostAttempt e = false) :
    isDeliveredPost e = false := by
  cases e <;> simp_all [isPostAttempt, isDeliveredPost]

theorem filter_branch_eq_nil (env : Env) (bt : List Event) (r : StepRes)
    (hb : (if useAsync env.audioSize then asyncBranch env else syncBranch env) = (bt, r))
    (p : Event → Bool) (hp : ∀ e, isPostAttempt e = false → p e = false) :
    bt.filter p = [] := by
  rw [List.filter_eq_nil_iff]
  intro e he
  simp [hp e (branch_no_post env bt r hb e he)]

theorem pipeline_delivered_split (env : Env) :
    ((pipeline env).1.filter isDeliveredPost).length ≤ 1 ∧
    (∀ e, (pipeline env).2 = .err e → (pipeline env).1.filter isDeliveredPost = []) := by
  cases hres : resolveFileId env.drive_link env.file_id with
  | none =>
    rw [pipeline_invalid env hres]
    simp
  | some fid =>
    rcases Bool.eq_false_or_eq_true env.downloadOk with hd | hd
    · rcases Bool.eq_false_or_eq_true env.ffmpegOk with hf | hf
      · rcases hb : (if useAsync env.audioSize then asyncBranch env else syncBranch env)
          with ⟨bt, r⟩
        have hbt : bt.filter isDeliveredPost = [] :=
          filter_branch_eq_nil env bt r hb isDeliveredPost isDeliveredPost_eq_false_of
        cases r with
        | err e2 =>
          rw [pipeline_staged_err env fid bt e2 hres hd hf hb]
          simp [List.filter_append, hbt, isDeliveredPost]
        | hang =>
          rw [pipeline_staged_hang env fid bt hres hd hf hb]
          simp [List.filter_append, hbt, isDeliveredPost]
        | ok =>
          rw [pipeline_staged_ok env fid bt hres hd hf hb]
          cases hbd : buildTranscript env.response with
          | none =>
            rw [finishStage_none env hbd]
            simp [List.filter_append, hbt, isDeliveredPost]
          | some t =>
            rw [finishStage_some env t hbd]
            rcases Bool.eq_false_or_eq_true env.successPostOk with hsp | hsp
            · rw [hsp]
              constructor
              · simp [List.filter_append, hbt, isDeliveredPost]
              · intro e2 he2
                simp at he2
            · rw [hsp]
              simp [List.filter_append, hbt, isDeliveredPost]
      · rw [pipeline_ffmpeg_fail env fid hres hd hf]
        simp [isDeliveredPost]
    · rw [pipeline_download_fail env fid hres hd]
      simp [isDeliveredPost]

/-- Claim C4, counterexample: on a fully successful run whose success-payload
post fails, the top-level handler posts a second, error payload — two delivery
attempts occur and the second one is an `{"error": ...}` post, so a failed
success delivery is not simply swallowed with no fallback path. -/
theorem c4_counterexample :
    ((runTrace envPostFail).filter isPostAttempt).length = 2 ∧
    (runTrace envPostFail).filter isErrorPost
      = [Event.postError (errStr Err.notifyErr) true] ∧
    runOutcome envPostFail = .finished := by
  decide

/-- Claim C4, amended: at most one notification is actually delivered to the
sink per run (and an invalid request delivers none); but when the success post
fails on a run that reached the cleanup block, the exception travels to the
top-level handler which makes a second post attempt carrying an error payload
— there is a second-tier delivery path — and the job still finishes. -/
theorem c4_amended :
    (∀ env : Env, ((runTrace env).filter isDeliveredPost).length ≤ 1) ∧
    (∀ env : Env, reachesCleanup env = true → env.successPostOk = false →
      ((runTrace env).filter isPostAttempt).length = 2 ∧
      (runTrace env).filter isErrorPost
        = [Event.postError (errStr Err.notifyErr) env.errorPostOk] ∧
      runOutcome env = .finished) := by
  constructor
  · intro env
    obtain ⟨hle, herr⟩ := pipeline_delivered_split env
    rcases runTrace_of_pipeline env with heq | ⟨e, he, heq⟩
    · rw [heq]
      exact hle
    · rw [heq, List.filter_append, herr e he]
      simp only [List.nil_append]
      cases hp : env.errorPostOk <;> simp [isDeliveredPost, hp]
  · intro env hclean hsp
    simp only [reachesCleanup, reachesSelect, Bool.and_eq_true] at hclean
    obtain ⟨⟨⟨⟨hv, hd⟩, hf⟩, hbrx⟩, hbx⟩ := hclean
    obtain ⟨fid, hres⟩ := Option.isSome_iff_exists.mp (by simpa [validResolved] using hv)
    obtain ⟨t, hb⟩ := Option.isSome_iff_exists.mp hbx
    have hfin : finishStage env = ([Event.removeVideoFile, Event.removeAudioFile,
        Event.postTranscript t false], .err .notifyErr) := by
      rw [finishStage_some env t hb, hsp]
      simp
    rcases Bool.eq_false_or_eq_true (useAsync env.audioSize) with ha | ha
    · rw [if_pos ha, Bool.and_eq_true, Bool.and_eq_true, Bool.and_eq_true,
        Bool.and_eq_true] at hbrx
      obtain ⟨⟨⟨⟨hu, hs⟩, hp⟩, hq⟩, hdel⟩ := hbrx
      have hb2 : (if useAsync env.audioSize then asyncBranch env else syncBranch env)
          = ([Event.uploadBlob, Event.startLRO] ++ pollEvents env.pollDones
            ++ [Event.fetchResult, Event.deleteBlob], .ok) := by
        rw [if_pos ha, asyncBranch_ok env hu hs hp hq hdel]
      have hpl := pipeline_staged_ok env fid _ hres hd hf hb2
      rw [hfin] at hpl
      simp only at hpl
      have hpfil : (pollEvents env.pollDones).filter isPostAttempt = [] :=
        filter_pollEvents _ (by rfl) _
      have hpfil2 : (pollEvents env.pollDones).filter isErrorPost = [] :=
        filter_pollEvents _ (by rfl) _
      refine ⟨?_, ?_, ?_⟩
      · rw [runTrace, processTranscription_of_err env _ _ hpl]
        simp [List.filter_append, isPostAttempt, hpfil]
      · rw [filter_errorPost_of_err env _ _ hpl]
        simp [List.filter_append, isErrorPost, hpfil2]
      · rw [runOutcome, processTranscription_of_err env _ _ hpl]
    · rw [if_neg (by simp [ha])] at hbrx
      have hb2 : (if useAsync env.audioSize then asyncBranch env else syncBranch env)
          = ([Event.recognizeSync], .ok) := by
        rw [if_neg (by simp [ha]), syncBranch_ok env hbrx]
      have hpl := pipeline_staged_ok env fid _ hres hd hf hb2
      rw [hfin] at hpl
      simp only at hpl
      refine ⟨?_, ?_, ?_⟩
      · rw [runTrace, processTranscription_of_err env _ _ hpl]
        simp [List.filter_append, isPostAttempt]
      · rw [filter_errorPost_of_err env _ _ hpl]
        simp [List.filter_append, isErrorPost]
      · rw [runOutcome, processTranscription_of_err env _ _ hpl]

/-- Claim C4, witness: the amended statement evaluated on the concrete run
whose success post fails: two attempts, one error payload, job finished. -/
theorem c4_witness :
    ((runTrace envPostFail).filter isPostAttempt).length = 2 ∧
    (runTrace envPostFail).filter isErrorPost
      = [Event.postError (errStr Err.notifyErr) envPostFail.errorPostOk] ∧
    runOutcome envPostFail = .finished :=
  c4_amended.2 envPostFail (by decide) (by decide)

/-- Claim C10: `process_transcription` never lets an exception escape to its
caller: for every environment — including ones where posting the error payload
itself fails — the run either finishes or stays in the poll loop, but never
reaches the `escaped` outcome that models an uncaught exception. -/
theorem c10_no_escape (env : Env) (e : Err) :
    runOutcome env ≠ TopOutcome.escaped e := by
  unfold runOutcome processTranscription
  rcases h : pipeline env with ⟨t, r⟩
  cases r with
  | ok => simp
  | hang => simp
  | err e2 =>
    unfold errorHandler postToWebhook
    cases hp : env.errorPostOk <;> simp [hp]

/-- Claim C7: reference resolution returns `file_id` verbatim whenever it is
truthy (no validation of shape); otherwise, for every drive link of the form
`pre ++ '/file/d/' ++ id ++ '/' ++ tail` whose first marker occurrence is the
explicit one and whose slash-free id segment is non-empty, extraction and
resolution both produce exactly `id`. -/
theorem c7_resolution :
    (∀ (dl : Option PyStr) (fi : PyStr), pyTruthy (some fi) = true →
      resolveFileId dl (some fi) = some fi) ∧
    (∀ pre id tail : PyStr,
      (∀ k, k < pre.length →
        fileMarker.isPrefixOf
          ((pre ++ (fileMarker ++ (id ++ '/' :: tail))).drop k) = false) →
      (∀ c ∈ id, c ≠ '/') →
      extractFromLink (pre ++ fileMarker ++ id ++ '/' :: tail) = some id ∧
      (id ≠ [] →
        resolveFileId (some (pre ++ fileMarker ++ id ++ '/' :: tail)) none
          = some id)) := by
  constructor
  · intro dl fi h
    unfold resolveFileId
    simp [h]
  · intro pre id tail hfirst hid
    have hm_ne : fileMarker ≠ [] := by decide
    have hsplit := pySplit_append fileMarker pre (id ++ '/' :: tail) hm_ne hfirst
    have hassoc : pre ++ fileMarker ++ id ++ '/' :: tail
        = pre ++ fileMarker ++ (id ++ '/' :: tail) := List.append_assoc _ _ _
    have hext : extractFromLink (pre ++ fileMarker ++ id ++ '/' :: tail) = some id := by
      unfold extractFromLink
      rw [hassoc, hsplit]
      have hpos : 0 < (pySplit fileMarker (id ++ '/' :: tail)).length :=
        List.length_pos.mpr (pySplit_ne_nil fileMarker (id ++ '/' :: tail))
      rw [if_pos (by simp only [List.length_cons]; omega)]
      simp only [List.drop_succ_cons, List.drop_zero]
      rw [pySplit_single_headD]
      have hmshape : fileMarker = '/' :: ("file/d/".toList) := by decide
      rw [hmshape]
      rw [takeWhile_pySplit_headD, takeWhile_slashFree id tail hid]
    refine ⟨hext, fun hne => ?_⟩
    have hids : id.isEmpty = false := by
      cases id with
      | nil => exact absurd rfl hne
      | cons c cs => rfl
    have hlink : pyTruthy (some (pre ++ fileMarker ++ id ++ '/' :: tail)) = true := by
      simp only [pyTruthy, Option.getD_some, Bool.not_eq_true']
      cases pre <;> rfl
    unfold resolveFileId
    rw [if_pos (by simp [hlink, pyTruthy])]
    simp only [Option.getD_some]
    rw [hext]
    simp [hids]

/-- Claim C7, witness: resolution of a realistic share link extracts the id
between the marker and the next path separator. -/
theorem c7_witness :
    resolveFileId (some ("https://drive.google.com".toList ++ fileMarker
      ++ "ABC123".toList ++ '/' :: ("view?usp=sharing".toList))) none
      = some ("ABC123".toList) :=
  ((c7_resolution.2 ("https://drive.google.com".toList) ("ABC123".toList)
    ("view?usp=sharing".toList) (by decide) (by decide)).2 (by decide))

end Shiner


